import Mathlib

/-!
Shallow embedding of the Art-Hanging placement engine (`src/app.js`).

All lengths are modelled as exact rationals (`ℚ`).  The JavaScript engine
computes with IEEE doubles and formats each numeric output with
`toFixed(2)` purely for display; the claims under verification are about
the computed quantities, which are the same algebraic expressions, so the
embedding keeps the exact (pre-formatting) values.  The one place where
the source itself rounds a *stored* value — the one-decimal rounding in
`toggleUnits` — is modelled explicitly by `round1`.

The derivation strings (`equation` / `horizontalEquation`) of the source
are display text and are not part of any numeric claim; they are not
embedded.  A grid result's `"Row r, Col c"` label is embedded as the pair
`(r, c)` in the `position` field.
-/

inductive MountingType
  | wire
  | dring
deriving DecidableEq

/-- The `configuration` enum of the source: which arrangement strategy runs. -/
inductive ConfigMode
  | single
  | vertical
  | horizontal
  | custom
deriving DecidableEq

/-- Reference edge of a horizontal distance (`horizontalFromEdge` in the source). -/
inductive EdgeRef
  | left
  | center
deriving DecidableEq

/-- The `units` flag of the source (`'cm'` / `'inches'`). -/
inductive LengthUnit
  | cm
  | inches
deriving DecidableEq

/-- One artwork record, as in the source's `artworks` state.  The `id` field
is UI-only list-diffing identity and is irrelevant to the math, so it is
not embedded. -/
structure Artwork where
  width : ℚ
  height : ℚ
  mountingType : MountingType
  wireOffset : ℚ
  mountingVerticalOffset : ℚ
  mountingHorizontalOffset : ℚ
  hangerOffset : ℚ
deriving DecidableEq

/-- The source's `layout` state record. -/
structure LayoutParams where
  rows : ℕ
  cols : ℕ
  horizontalGap : ℚ
  verticalGap : ℚ
deriving DecidableEq

/-- The whole state tree passed (by closure) into `calculateNailPosition`. -/
structure AppState where
  targetCentroid : ℚ
  wallWidth : ℚ
  configuration : ConfigMode
  artworks : List Artwork
  layout : LayoutParams
deriving DecidableEq

/-- One placement result record.  Numeric fields carry the exact computed
values (the source formats them with `toFixed(2)` for display only). -/
structure PlacementResult where
  artwork : ℕ
  position : Option (ℕ × ℕ)
  isDRing : Bool
  nailHeight : ℚ
  centroid : ℚ
  horizontalDistance : ℚ
  horizontalDistance2 : Option ℚ
  horizontalFromEdge : EdgeRef
deriving DecidableEq

/-- The artwork the single branch falls back to when `artworks` is empty:
`artworks[0] || {}` makes every numeric field read as `0` (via `|| 0`) and
`mountingType` read as `undefined`, which is not `'dring'`, hence wire. -/
def emptyArtwork : Artwork :=
  { width := 0, height := 0, mountingType := MountingType.wire, wireOffset := 0,
    mountingVerticalOffset := 0, mountingHorizontalOffset := 0, hangerOffset := 0 }

/-- Default result used only as the `getD` fallback in statements. -/
def emptyResult : PlacementResult :=
  { artwork := 0, position := none, isDRing := false, nailHeight := 0, centroid := 0,
    horizontalDistance := 0, horizontalDistance2 := none,
    horizontalFromEdge := EdgeRef.left }

/-- `const groupStart = (totalW) => (wallWidth ? (wallWidth - totalW) / 2 : 0);`
JS truthiness: `wallWidth = 0` is falsy, so centering collapses to `0`. -/
def groupStart (wallWidth totalW : ℚ) : ℚ :=
  if wallWidth = 0 then 0 else (wallWidth - totalW) / 2

/-- `wireNailHeight`: `targetCentroid + height/2 - wireOffset + hangerOffset`. -/
def wireNailHeight (targetCentroid : ℚ) (art : Artwork) : ℚ :=
  targetCentroid + art.height / 2 - art.wireOffset + art.hangerOffset

/-- `dringNailHeight`: `targetCentroid + height/2 - mountingVerticalOffset`. -/
def dringNailHeight (targetCentroid : ℚ) (art : Artwork) : ℚ :=
  targetCentroid + art.height / 2 - art.mountingVerticalOffset

/-- The SINGLE branch of `calculateNailPosition`. -/
def singleResults (s : AppState) : List PlacementResult :=
  let art := s.artworks.headD emptyArtwork
  let horizontalCenter := s.wallWidth / 2
  if art.mountingType = MountingType.dring then
    let startX := groupStart s.wallWidth art.width
    [{ artwork := 1, position := none, isDRing := true,
       nailHeight := dringNailHeight s.targetCentroid art,
       centroid := s.targetCentroid,
       horizontalDistance := startX + art.mountingHorizontalOffset,
       horizontalDistance2 := some (startX + art.width - art.mountingHorizontalOffset),
       horizontalFromEdge := EdgeRef.left }]
  else
    [{ artwork := 1, position := none, isDRing := false,
       nailHeight := wireNailHeight s.targetCentroid art,
       centroid := s.targetCentroid,
       horizontalDistance := horizontalCenter,
       horizontalDistance2 := none,
       horizontalFromEdge := EdgeRef.center }]

/-- Width of grid column `c`: max width over `artworks.filter((_, i) =>
i % cols === c && i < rows * cols)`, or `0` if that column is empty. -/
def colWidth (arts : List Artwork) (rows cols c : ℕ) : ℚ :=
  match (arts.enum.filter fun p => p.1 % cols == c && decide (p.1 < rows * cols)).map
      (fun p => p.2.width) with
  | [] => 0
  | w :: ws => ws.foldl max w

/-- The `colWidths` array built by the grid branch. -/
def colWidths (arts : List Artwork) (rows cols : ℕ) : List ℚ :=
  (List.range cols).map (colWidth arts rows cols)

/-- Grid `totalWidth = colWidths.sum + (cols > 1 ? (cols - 1) * horizontalGap : 0)`. -/
def gridTotalWidth (arts : List Artwork) (rows cols : ℕ) (hgap : ℚ) : ℚ :=
  (colWidths arts rows cols).sum + (if 1 < cols then ((cols - 1 : ℕ) : ℚ) * hgap else 0)

/-- Height of grid row `r`: max height over `artworks.slice(r*cols, r*cols+cols)`,
or `0` if that slice is empty. -/
def rowHeight (arts : List Artwork) (cols r : ℕ) : ℚ :=
  match ((arts.drop (r * cols)).take cols).map (fun a => a.height) with
  | [] => 0
  | h :: hs => hs.foldl max h

/-- The `rowHeights` array built by the grid branch. -/
def rowHeights (arts : List Artwork) (rows cols : ℕ) : List ℚ :=
  (List.range rows).map (rowHeight arts cols)

/-- Grid `totalHeight = rowHeights.sum + (rows > 1 ? (rows - 1) * verticalGap : 0)`. -/
def gridTotalHeight (arts : List Artwork) (rows cols : ℕ) (vgap : ℚ) : ℚ :=
  (rowHeights arts rows cols).sum + (if 1 < rows then ((rows - 1 : ℕ) : ℚ) * vgap else 0)

/-- Grid `offset = targetCentroid - gridCentroid`, `gridCentroid = totalHeight / 2`. -/
def gridOffset (s : AppState) : ℚ :=
  s.targetCentroid -
    gridTotalHeight s.artworks s.layout.rows s.layout.cols s.layout.verticalGap / 2

/-- Grid `heightAbove` for the artwork at flat index `i` (its row is `i / cols`):
`rowHeights.slice(0, row).sum + row * verticalGap`. -/
def gridHeightAbove (s : AppState) (i : ℕ) : ℚ :=
  ((rowHeights s.artworks s.layout.rows s.layout.cols).take (i / s.layout.cols)).sum
    + ((i / s.layout.cols : ℕ) : ℚ) * s.layout.verticalGap

/-- Grid `widthToLeft` for the artwork at flat index `i` (its column is `i % cols`):
`colWidths.slice(0, col).sum + col * horizontalGap`. -/
def gridWidthToLeft (s : AppState) (i : ℕ) : ℚ :=
  ((colWidths s.artworks s.layout.rows s.layout.cols).take (i % s.layout.cols)).sum
    + ((i % s.layout.cols : ℕ) : ℚ) * s.layout.horizontalGap

/-- Grid `gridStartX = groupStart(totalWidth)`. -/
def gridStartX (s : AppState) : ℚ :=
  groupStart s.wallWidth
    (gridTotalWidth s.artworks s.layout.rows s.layout.cols s.layout.horizontalGap)

/-- Grid `artLeftX = gridStartX + widthToLeft` (left-aligned within its column). -/
def gridArtLeftX (s : AppState) (i : ℕ) : ℚ :=
  gridStartX s + gridWidthToLeft s i

/-- One CUSTOM-GRID result, for the artwork at flat (row-major) index `i`.
Note the source's wire nail height is
`wireNailHeight(art) + (offset - height/2 + height/2)` and the D-ring one is
`dringNailHeight(art) + offset`: both add the group `offset` to a formula
evaluated at `targetCentroid`, not at the artwork's own centroid. -/
def gridEntry (s : AppState) (i : ℕ) : PlacementResult :=
  let art := s.artworks.getD i emptyArtwork
  let offset := gridOffset s
  let actualCentroid := gridHeightAbove s i + art.height / 2 + offset
  let artLeftX := gridArtLeftX s i
  let pos := some (i / s.layout.cols + 1, i % s.layout.cols + 1)
  if art.mountingType = MountingType.dring then
    { artwork := i + 1, position := pos, isDRing := true,
      nailHeight := dringNailHeight s.targetCentroid art + offset,
      centroid := actualCentroid,
      horizontalDistance := artLeftX + art.mountingHorizontalOffset,
      horizontalDistance2 := some (artLeftX + art.width - art.mountingHorizontalOffset),
      horizontalFromEdge := EdgeRef.left }
  else
    { artwork := i + 1, position := pos, isDRing := false,
      nailHeight := wireNailHeight s.targetCentroid art
        + (offset - art.height / 2 + art.height / 2),
      centroid := actualCentroid,
      horizontalDistance := artLeftX + art.width / 2,
      horizontalDistance2 := none,
      horizontalFromEdge := EdgeRef.left }

/-- The CUSTOM GRID branch: the row-major loops with the inner
`if (artIndex >= artworks.length) break` emit exactly the artworks at flat
indices `0 .. min(artworks.length, rows*cols) - 1`, in order. -/
def gridResults (s : AppState) : List PlacementResult :=
  (List.range (min s.artworks.length (s.layout.rows * s.layout.cols))).map (gridEntry s)

/-- The `reduce((sum, v, i) => sum + v + (i > 0 ? gap : 0), 0)` pattern used for
the stack totals, carrying the element index. -/
def stackTotalAux (gap : ℚ) : List ℚ → ℕ → ℚ
  | [], _ => 0
  | v :: rest, i => v + (if 0 < i then gap else 0) + stackTotalAux gap rest (i + 1)

/-- Stack total length: `Σ v + (n - 1) * gap` computed exactly as the source does. -/
def stackTotal (vals : List ℚ) (gap : ℚ) : ℚ :=
  stackTotalAux gap vals 0

/-- The VERTICAL STACK `artworks.map` loop.  `total` is the full artwork count
(the source's `artworks.length`), `i` the current index and `cumulative` the
running vertical position.  Both mounting branches return a nail height
computed at `targetCentroid` (`wireNailHeight(art)` / `dringNailHeight(art)`);
the source's unused local `nailHeight` in the D-ring branch is dropped. -/
def verticalAux (targetC wallW vgap offset : ℚ) (total : ℕ) :
    List Artwork → ℕ → ℚ → List PlacementResult
  | [], _, _ => []
  | art :: rest, i, cumulative =>
    let artCentroid := cumulative + art.height / 2 + offset
    (if art.mountingType = MountingType.dring then
      let artLeftX := groupStart wallW art.width
      { artwork := i + 1, position := none, isDRing := true,
        nailHeight := dringNailHeight targetC art,
        centroid := artCentroid,
        horizontalDistance := artLeftX + art.mountingHorizontalOffset,
        horizontalDistance2 := some (artLeftX + art.width - art.mountingHorizontalOffset),
        horizontalFromEdge := EdgeRef.left }
     else
      { artwork := i + 1, position := none, isDRing := false,
        nailHeight := wireNailHeight targetC art,
        centroid := artCentroid,
        horizontalDistance := wallW / 2,
        horizontalDistance2 := none,
        horizontalFromEdge := EdgeRef.center })
    :: verticalAux targetC wallW vgap offset total rest (i + 1)
        (cumulative + art.height + (if i < total - 1 then vgap else 0))

/-- The VERTICAL STACK branch. -/
def verticalResults (s : AppState) : List PlacementResult :=
  let totalHeight := stackTotal (s.artworks.map fun a => a.height) s.layout.verticalGap
  let offset := s.targetCentroid - totalHeight / 2
  verticalAux s.targetCentroid s.wallWidth s.layout.verticalGap offset
    s.artworks.length s.artworks 0 0

/-- Horizontal-stack composite width, exactly the source's reduce. -/
def hStackTotalWidth (s : AppState) : ℚ :=
  stackTotal (s.artworks.map fun a => a.width) s.layout.horizontalGap

/-- Horizontal-stack `startX = groupStart(totalWidth)`. -/
def hStackStartX (s : AppState) : ℚ :=
  groupStart s.wallWidth (hStackTotalWidth s)

/-- The HORIZONTAL STACK `artworks.map` loop. -/
def horizontalAux (targetC hgap startX : ℚ) (total : ℕ) :
    List Artwork → ℕ → ℚ → List PlacementResult
  | [], _, _ => []
  | art :: rest, i, cumulative =>
    let artLeftX := startX + cumulative
    (if art.mountingType = MountingType.dring then
      { artwork := i + 1, position := none, isDRing := true,
        nailHeight := dringNailHeight targetC art,
        centroid := targetC,
        horizontalDistance := artLeftX + art.mountingHorizontalOffset,
        horizontalDistance2 := some (artLeftX + art.width - art.mountingHorizontalOffset),
        horizontalFromEdge := EdgeRef.left }
     else
      { artwork := i + 1, position := none, isDRing := false,
        nailHeight := wireNailHeight targetC art,
        centroid := targetC,
        horizontalDistance := artLeftX + art.width / 2,
        horizontalDistance2 := none,
        horizontalFromEdge := EdgeRef.left })
    :: horizontalAux targetC hgap startX total rest (i + 1)
        (cumulative + art.width + (if i < total - 1 then hgap else 0))

/-- The HORIZONTAL STACK branch (the source's fall-through default). -/
def horizontalResults (s : AppState) : List PlacementResult :=
  horizontalAux s.targetCentroid s.layout.horizontalGap (hStackStartX s)
    s.artworks.length s.artworks 0 0

/-- `calculateNailPosition`: the source's if-chain on `configuration`
(`single`, then `custom`, then `vertical`, with horizontal as the default). -/
def calculateNailPosition (s : AppState) : List PlacementResult :=
  if s.configuration = ConfigMode.single then singleResults s
  else if s.configuration = ConfigMode.custom then gridResults s
  else if s.configuration = ConfigMode.vertical then verticalResults s
  else horizontalResults s

/-- Height-weighted sum of the per-artwork centroids returned by the engine,
pairing each artwork with its result in order. -/
def weightedCentroidSum (s : AppState) : ℚ :=
  ((s.artworks.zip (calculateNailPosition s)).map fun p => p.1.height * p.2.centroid).sum

/-- `+(x).toFixed(1)`: rounding to one decimal place. -/
def round1 (x : ℚ) : ℚ :=
  ((round (10 * x) : ℤ) : ℚ) / 10

/-- `+(prev * factor).toFixed(1)` — conversion of an unguarded field. -/
def convLen (factor x : ℚ) : ℚ :=
  round1 (x * factor)

/-- `prev === 0 ? 0 : +(prev * factor).toFixed(1)` — conversion of a field with
the explicit keep-zero guard. -/
def convLenZ (factor x : ℚ) : ℚ :=
  if x = 0 then 0 else round1 (x * factor)

/-- Per-artwork part of `toggleUnits` (all six length fields are zero-guarded). -/
def convArtwork (factor : ℚ) (art : Artwork) : Artwork :=
  { art with
    width := convLenZ factor art.width,
    height := convLenZ factor art.height,
    wireOffset := convLenZ factor art.wireOffset,
    mountingVerticalOffset := convLenZ factor art.mountingVerticalOffset,
    mountingHorizontalOffset := convLenZ factor art.mountingHorizontalOffset,
    hangerOffset := convLenZ factor art.hangerOffset }

/-- `toggleUnits`: flips the unit flag and rescales every stored length by
`2.54` (to cm) or `1 / 2.54` (to inches), rounding each to one decimal.
`targetCentroid` and the two layout gaps are converted unguarded; `wallWidth`
and all artwork fields keep an exact `0` unchanged. -/
def toggleUnits (p : LengthUnit × AppState) : LengthUnit × AppState :=
  let newUnits := if p.1 = LengthUnit.inches then LengthUnit.cm else LengthUnit.inches
  let factor := if newUnits = LengthUnit.cm then (254 / 100 : ℚ) else 1 / (254 / 100 : ℚ)
  (newUnits,
   { p.2 with
     targetCentroid := convLen factor p.2.targetCentroid,
     wallWidth := convLenZ factor p.2.wallWidth,
     artworks := p.2.artworks.map (convArtwork factor),
     layout := { p.2.layout with
       horizontalGap := convLen factor p.2.layout.horizontalGap,
       verticalGap := convLen factor p.2.layout.verticalGap } })

/-- cm → inches → cm round trip of one unguarded length field. -/
def cmRoundTrip (x : ℚ) : ℚ :=
  convLen (254 / 100) (convLen (1 / (254 / 100)) x)

/-- cm → inches → cm round trip of one zero-guarded length field. -/
def cmRoundTripZ (x : ℚ) : ℚ :=
  convLenZ (254 / 100) (convLenZ (1 / (254 / 100)) x)

/-!
## Instrumented (checked) engine

For the safety claim, every JavaScript numeric operation of the engine that
could produce a non-finite value is replaced by a checked version: a
division returns `none` when its divisor is zero, `Math.max(...)` returns
`none` when applied to an empty argument list, and an array read returns
`none` when out of bounds.  The theorem that this instrumented engine always
returns `some` of the plain engine's output shows that no such operation is
ever reached with a bad argument, for every input state.
-/

/-- Checked division: `none` models a division by zero. -/
def divC (a b : ℚ) : Option ℚ :=
  if b = 0 then none else some (a / b)

/-- Checked `Math.max(...list)`: `none` models the empty spread (`-Infinity`). -/
def maxListC : List ℚ → Option ℚ
  | [] => none
  | a :: as => some (as.foldl max a)

def groupStartC (wallWidth totalW : ℚ) : Option ℚ :=
  if wallWidth = 0 then some 0 else divC (wallWidth - totalW) 2

def wireNailHeightC (targetC : ℚ) (art : Artwork) : Option ℚ :=
  (divC art.height 2).bind fun h2 =>
  some (targetC + h2 - art.wireOffset + art.hangerOffset)

def dringNailHeightC (targetC : ℚ) (art : Artwork) : Option ℚ :=
  (divC art.height 2).bind fun h2 =>
  some (targetC + h2 - art.mountingVerticalOffset)

def singleResultsC (s : AppState) : Option (List PlacementResult) :=
  let art := s.artworks.headD emptyArtwork
  (divC s.wallWidth 2).bind fun horizontalCenter =>
  if art.mountingType = MountingType.dring then
    (dringNailHeightC s.targetCentroid art).bind fun nh =>
    (groupStartC s.wallWidth art.width).bind fun startX =>
    some [{ artwork := 1, position := none, isDRing := true, nailHeight := nh,
            centroid := s.targetCentroid,
            horizontalDistance := startX + art.mountingHorizontalOffset,
            horizontalDistance2 := some (startX + art.width - art.mountingHorizontalOffset),
            horizontalFromEdge := EdgeRef.left }]
  else
    (wireNailHeightC s.targetCentroid art).bind fun nh =>
    some [{ artwork := 1, position := none, isDRing := false, nailHeight := nh,
            centroid := s.targetCentroid,
            horizontalDistance := horizontalCenter,
            horizontalDistance2 := none,
            horizontalFromEdge := EdgeRef.center }]

def colWidthC (arts : List Artwork) (rows cols c : ℕ) : Option ℚ :=
  match (arts.enum.filter fun p => p.1 % cols == c && decide (p.1 < rows * cols)).map
      (fun p => p.2.width) with
  | [] => some 0
  | w :: ws => maxListC (w :: ws)

def rowHeightC (arts : List Artwork) (cols r : ℕ) : Option ℚ :=
  match ((arts.drop (r * cols)).take cols).map (fun a => a.height) with
  | [] => some 0
  | h :: hs => maxListC (h :: hs)

/-- Sequence a checked computation over a list. -/
def traverseC {α β : Type} (f : α → Option β) : List α → Option (List β)
  | [] => some []
  | a :: rest =>
    (f a).bind fun b =>
    (traverseC f rest).bind fun bs =>
    some (b :: bs)

def gridEntryC (s : AppState) (colWs rowHs : List ℚ) (startX offset : ℚ) (i : ℕ) :
    Option PlacementResult :=
  (s.artworks.get? i).bind fun art =>
  (divC art.height 2).bind fun h2 =>
  let hAbove := (rowHs.take (i / s.layout.cols)).sum
    + ((i / s.layout.cols : ℕ) : ℚ) * s.layout.verticalGap
  let wLeft := (colWs.take (i % s.layout.cols)).sum
    + ((i % s.layout.cols : ℕ) : ℚ) * s.layout.horizontalGap
  let artLeftX := startX + wLeft
  let actualCentroid := hAbove + h2 + offset
  let pos := some (i / s.layout.cols + 1, i % s.layout.cols + 1)
  if art.mountingType = MountingType.dring then
    (dringNailHeightC s.targetCentroid art).bind fun nh =>
    some { artwork := i + 1, position := pos, isDRing := true,
           nailHeight := nh + offset, centroid := actualCentroid,
           horizontalDistance := artLeftX + art.mountingHorizontalOffset,
           horizontalDistance2 := some (artLeftX + art.width - art.mountingHorizontalOffset),
           horizontalFromEdge := EdgeRef.left }
  else
    (wireNailHeightC s.targetCentroid art).bind fun nh =>
    (divC art.width 2).bind fun w2 =>
    some { artwork := i + 1, position := pos, isDRing := false,
           nailHeight := nh + (offset - h2 + h2), centroid := actualCentroid,
           horizontalDistance := artLeftX + w2,
           horizontalDistance2 := none,
           horizontalFromEdge := EdgeRef.left }

def gridResultsC (s : AppState) : Option (List PlacementResult) :=
  (traverseC (colWidthC s.artworks s.layout.rows s.layout.cols)
      (List.range s.layout.cols)).bind fun colWs =>
  (groupStartC s.wallWidth
      (colWs.sum + (if 1 < s.layout.cols then
        ((s.layout.cols - 1 : ℕ) : ℚ) * s.layout.horizontalGap else 0))).bind fun startX =>
  (traverseC (rowHeightC s.artworks s.layout.cols)
      (List.range s.layout.rows)).bind fun rowHs =>
  (divC (rowHs.sum + (if 1 < s.layout.rows then
      ((s.layout.rows - 1 : ℕ) : ℚ) * s.layout.verticalGap else 0)) 2).bind fun gridCentroid =>
  traverseC (gridEntryC s colWs rowHs startX (s.targetCentroid - gridCentroid))
    (List.range (min s.artworks.length (s.layout.rows * s.layout.cols)))

def verticalAuxC (targetC wallW vgap offset : ℚ) (total : ℕ) :
    List Artwork → ℕ → ℚ → Option (List PlacementResult)
  | [], _, _ => some []
  | art :: rest, i, cumulative =>
    (divC art.height 2).bind fun h2 =>
    (if art.mountingType = MountingType.dring then
      (dringNailHeightC targetC art).bind fun nh =>
      (groupStartC wallW art.width).bind fun artLeftX =>
      some { artwork := i + 1, position := none, isDRing := true,
             nailHeight := nh, centroid := cumulative + h2 + offset,
             horizontalDistance := artLeftX + art.mountingHorizontalOffset,
             horizontalDistance2 := some (artLeftX + art.width - art.mountingHorizontalOffset),
             horizontalFromEdge := EdgeRef.left }
     else
      (wireNailHeightC targetC art).bind fun nh =>
      (divC wallW 2).bind fun horizontalCenter =>
      some { artwork := i + 1, position := none, isDRing := false,
             nailHeight := nh, centroid := cumulative + h2 + offset,
             horizontalDistance := horizontalCenter,
             horizontalDistance2 := none,
             horizontalFromEdge := EdgeRef.center }).bind fun r =>
    (verticalAuxC targetC wallW vgap offset total rest (i + 1)
        (cumulative + art.height + (if i < total - 1 then vgap else 0))).bind fun rs =>
    some (r :: rs)

def verticalResultsC (s : AppState) : Option (List PlacementResult) :=
  (divC (stackTotal (s.artworks.map fun a => a.height) s.layout.verticalGap) 2).bind
    fun groupCentroid =>
  verticalAuxC s.targetCentroid s.wallWidth s.layout.verticalGap
    (s.targetCentroid - groupCentroid) s.artworks.length s.artworks 0 0

def horizontalAuxC (targetC hgap startX : ℚ) (total : ℕ) :
    List Artwork → ℕ → ℚ → Option (List PlacementResult)
  | [], _, _ => some []
  | art :: rest, i, cumulative =>
    let artLeftX := startX + cumulative
    (if art.mountingType = MountingType.dring then
      (dringNailHeightC targetC art).bind fun nh =>
      some { artwork := i + 1, position := none, isDRing := true,
             nailHeight := nh, centroid := targetC,
             horizontalDistance := artLeftX + art.mountingHorizontalOffset,
             horizontalDistance2 := some (artLeftX + art.width - art.mountingHorizontalOffset),
             horizontalFromEdge := EdgeRef.left }
     else
      (wireNailHeightC targetC art).bind fun nh =>
      (divC art.width 2).bind fun w2 =>
      some { artwork := i + 1, position := none, isDRing := false,
             nailHeight := nh, centroid := targetC,
             horizontalDistance := artLeftX + w2,
             horizontalDistance2 := none,
             horizontalFromEdge := EdgeRef.left }).bind fun r =>
    (horizontalAuxC targetC hgap startX total rest (i + 1)
        (cumulative + art.width + (if i < total - 1 then hgap else 0))).bind fun rs =>
    some (r :: rs)

def horizontalResultsC (s : AppState) : Option (List PlacementResult) :=
  (groupStartC s.wallWidth (hStackTotalWidth s)).bind fun startX =>
  horizontalAuxC s.targetCentroid s.layout.horizontalGap startX
    s.artworks.length s.artworks 0 0

/-- The instrumented engine. -/
def calculateNailPositionChecked (s : AppState) : Option (List PlacementResult) :=
  if s.configuration = ConfigMode.single then singleResultsC s
  else if s.configuration = ConfigMode.custom then gridResultsC s
  else if s.configuration = ConfigMode.vertical then verticalResultsC s
  else horizontalResultsC s

/-!
## Concrete states used by counterexamples and witnesses
-/

/-- A wire-mounted artwork with the given width, height, wire offset and
hanger offset. -/
def wireArt (w h wo ho : ℚ) : Artwork :=
  { width := w, height := h, mountingType := MountingType.wire, wireOffset := wo,
    mountingVerticalOffset := 0, mountingHorizontalOffset := 0, hangerOffset := ho }

/-- A D-ring-mounted artwork with the given width, height and mount offsets. -/
def dringArt (w h mvo mho : ℚ) : Artwork :=
  { width := w, height := h, mountingType := MountingType.dring, wireOffset := 0,
    mountingVerticalOffset := mvo, mountingHorizontalOffset := mho, hangerOffset := 0 }

def mkLayout (r c : ℕ) (hg vg : ℚ) : LayoutParams :=
  { rows := r, cols := c, horizontalGap := hg, verticalGap := vg }

def mkState (t ww : ℚ) (cm : ConfigMode) (arts : List Artwork) (l : LayoutParams) : AppState :=
  { targetCentroid := t, wallWidth := ww, configuration := cm, artworks := arts, layout := l }

/-- Single mode, one wire artwork, `targetCentroid = 100`, `height = 50`. -/
def stateC1single : AppState :=
  mkState 100 200 ConfigMode.single [wireArt 40 50 0 0] (mkLayout 1 1 10 10)

/-- The same artwork and numbers in Custom Grid mode with `rows = cols = 1`. -/
def stateC1grid : AppState :=
  { stateC1single with configuration := ConfigMode.custom }

/-- Vertical stack, two wire artworks of heights `50` and `30`, gap `10`,
`targetCentroid = 150` (the spec's own concrete scenario). -/
def stateC2stack : AppState :=
  mkState 150 100 ConfigMode.vertical [wireArt 40 50 0 0, wireArt 40 30 0 0]
    (mkLayout 1 1 10 10)

/-- Vertical stack of two artworks with identical dimensions and offsets. -/
def stateC2twins : AppState :=
  mkState 150 100 ConfigMode.vertical [wireArt 40 50 0 0, wireArt 40 50 0 0]
    (mkLayout 1 1 10 10)

/-- Spec scenario for Single/wire: `wallWidth = 200`, artwork `50 × 70`,
`wireOffset = 10`, `hangerOffset = 2.54`, `targetCentroid = 152.4`. -/
def stateC3demo : AppState :=
  mkState (762 / 5) 200 ConfigMode.single [wireArt 50 70 10 (254 / 100)] (mkLayout 1 1 10 10)

/-- Vertical stack with unequal heights `50` and `30` (for the weighted-average
counterexample; same numbers as `stateC2stack`). -/
def stateC4unequal : AppState :=
  mkState 150 100 ConfigMode.vertical [wireArt 35 50 0 0, wireArt 45 30 0 0]
    (mkLayout 1 1 10 10)

/-- Vertical stack with two equal-height artworks (weighted-average witness). -/
def stateC4equal : AppState :=
  mkState 150 100 ConfigMode.vertical [wireArt 35 50 0 0, wireArt 45 50 0 0]
    (mkLayout 1 1 10 10)

/-- Single D-ring artwork on a wall of width `0`. -/
def stateC5zeroWall : AppState :=
  mkState 100 0 ConfigMode.single [dringArt 10 20 3 2] (mkLayout 1 1 10 10)

/-- Single D-ring artwork on a wall of width `200`. -/
def stateC5demo : AppState :=
  mkState 100 200 ConfigMode.single [dringArt 50 40 3 5] (mkLayout 1 1 10 10)

/-- Horizontal stack of one wire artwork on a wall of width `0`. -/
def stateC7zeroWall : AppState :=
  mkState 100 0 ConfigMode.horizontal [wireArt 10 20 0 0] (mkLayout 1 1 10 10)

/-- Horizontal stack of two wire artworks, `wallWidth = 200`. -/
def stateC7demo : AppState :=
  mkState 100 200 ConfigMode.horizontal [wireArt 30 40 2 1, wireArt 50 60 0 0]
    (mkLayout 1 1 10 10)

/-- Single mode with an empty artwork list. -/
def stateC8single : AppState :=
  mkState 100 200 ConfigMode.single [] (mkLayout 2 2 10 10)

/-- Vertical mode with an empty artwork list. -/
def stateC8vertical : AppState :=
  mkState 100 200 ConfigMode.vertical [] (mkLayout 2 2 10 10)

/-- Single D-ring artwork used to witness the reference-edge claim. -/
def stateC10demo : AppState :=
  mkState 100 200 ConfigMode.single [dringArt 50 40 3 5] (mkLayout 1 1 10 10)

/-!
## Basic lemmas
-/

@[simp]
lemma divC_two (a : ℚ) : divC a 2 = some (a / 2) := by
  norm_num [divC]

@[simp]
lemma groupStartC_eq (w t : ℚ) : groupStartC w t = some (groupStart w t) := by
  unfold groupStartC groupStart
  by_cases h : w = 0 <;> simp [h]

@[simp]
lemma wireNailHeightC_eq (t : ℚ) (art : Artwork) :
    wireNailHeightC t art = some (wireNailHeight t art) := by
  simp [wireNailHeightC, wireNailHeight]

@[simp]
lemma dringNailHeightC_eq (t : ℚ) (art : Artwork) :
    dringNailHeightC t art = some (dringNailHeight t art) := by
  simp [dringNailHeightC, dringNailHeight]

/-!
## Claim C3 — Single/wire exact formula
-/

/-- Claim C3: in Single mode with a wire-mounted artwork, the engine returns
exactly one result, whose nail height is
`targetCentroid + height/2 - wireOffset + hangerOffset` (proved for all
inputs, in particular all non-negative ones). -/
theorem single_wire_exact (s : AppState)
    (hc : s.configuration = ConfigMode.single)
    (hw : (s.artworks.headD emptyArtwork).mountingType = MountingType.wire) :
    calculateNailPosition s =
      [{ artwork := 1, position := none, isDRing := false,
         nailHeight := s.targetCentroid + (s.artworks.headD emptyArtwork).height / 2
           - (s.artworks.headD emptyArtwork).wireOffset
           + (s.artworks.headD emptyArtwork).hangerOffset,
         centroid := s.targetCentroid,
         horizontalDistance := s.wallWidth / 2,
         horizontalDistance2 := none,
         horizontalFromEdge := EdgeRef.center }] := by
  rw [List.headD_eq_head?] at hw
  simp [calculateNailPosition, hc, singleResults, hw, wireNailHeight]

/-- Witness for C3 at the spec's concrete scenario: nail height
`152.4 + 35 - 10 + 2.54 = 179.94`, horizontal distance `100` (wall center). -/
theorem single_wire_exact_witness :
    calculateNailPosition stateC3demo =
      [{ artwork := 1, position := none, isDRing := false,
         nailHeight := 8997 / 50, centroid := 762 / 5,
         horizontalDistance := 100, horizontalDistance2 := none,
         horizontalFromEdge := EdgeRef.center }] := by
  have h := single_wire_exact stateC3demo rfl rfl
  rw [h]
  norm_num [stateC3demo, mkState, wireArt]

/-!
## Claim C5 — Single/D-ring symmetry
-/

/-- Claim C5 (amended): in Single mode with a D-ring artwork the two nail
positions always satisfy `left + right = 2 * groupStart(width) + width`;
when `wallWidth ≠ 0` this is the claimed
`2 * ((wallWidth - width) / 2) + width`.  When `wallWidth = 0` the source's
`groupStart` collapses to `0`, so the sum is `width` instead. -/
theorem single_dring_symmetry (s : AppState)
    (hc : s.configuration = ConfigMode.single)
    (hd : (s.artworks.headD emptyArtwork).mountingType = MountingType.dring) :
    (calculateNailPosition s).length = 1 ∧
    ∀ r ∈ calculateNailPosition s,
      r.horizontalDistance + r.horizontalDistance2.getD 0
        = 2 * groupStart s.wallWidth (s.artworks.headD emptyArtwork).width
          + (s.artworks.headD emptyArtwork).width ∧
      (s.wallWidth ≠ 0 →
        r.horizontalDistance + r.horizontalDistance2.getD 0
          = 2 * ((s.wallWidth - (s.artworks.headD emptyArtwork).width) / 2)
            + (s.artworks.headD emptyArtwork).width) := by
  rw [List.headD_eq_head?] at hd
  constructor
  · simp [calculateNailPosition, hc, singleResults, hd]
  · intro r hr
    simp [calculateNailPosition, hc, singleResults, hd] at hr
    subst hr
    constructor
    · simp
      ring
    · intro hwall
      simp [groupStart, hwall]
      ring

/-- Claim C5 counterexample: with `wallWidth = 0` (explicitly included in the
claim) the returned sum is the artwork's width (`10`), not
`2 * ((wallWidth - width) / 2) + width = 0`. -/
theorem single_dring_symmetry_counterexample :
    ((calculateNailPosition stateC5zeroWall).map fun r =>
        r.horizontalDistance + r.horizontalDistance2.getD 0) = [10] ∧
    (10 : ℚ) ≠ 2 * ((stateC5zeroWall.wallWidth -
        (stateC5zeroWall.artworks.headD emptyArtwork).width) / 2)
        + (stateC5zeroWall.artworks.headD emptyArtwork).width := by
  constructor
  · norm_num [calculateNailPosition, stateC5zeroWall, mkState, mkLayout, dringArt,
      singleResults, dringNailHeight, groupStart, emptyArtwork] <;> simp
  · norm_num [stateC5zeroWall, mkState, dringArt]

/-- Witness for (amended) C5 at `wallWidth = 200`, `width = 50`. -/
theorem single_dring_symmetry_witness :
    ((calculateNailPosition stateC5demo).map fun r =>
        r.horizontalDistance + r.horizontalDistance2.getD 0)
      = [2 * ((stateC5demo.wallWidth - (stateC5demo.artworks.headD emptyArtwork).width) / 2)
          + (stateC5demo.artworks.headD emptyArtwork).width] := by
  have h := single_dring_symmetry stateC5demo rfl rfl
  obtain ⟨r, hr⟩ := List.length_eq_one.mp h.1
  rw [hr]
  have hmem : r ∈ calculateNailPosition stateC5demo := by rw [hr]; simp
  have hval := (h.2 r hmem).2 (by norm_num [stateC5demo, mkState])
  simpa using hval

/-!
## Claim C8 — empty artwork list
-/

/-- Claim C8 (amended): with an empty artwork list, the vertical, horizontal
and custom-grid strategies return an empty result list, but Single mode
substitutes the default empty artwork (`artworks[0] || {}`) and returns one
placeholder result. -/
theorem empty_artworks_result_length (s : AppState) (h : s.artworks = []) :
    (calculateNailPosition s).length =
      (if s.configuration = ConfigMode.single then 1 else 0) := by
  rcases s with ⟨t, w, conf, arts, l⟩
  simp only at h
  subst h
  cases conf <;>
    simp [calculateNailPosition, singleResults, gridResults, verticalResults,
      horizontalResults, verticalAux, horizontalAux, emptyArtwork]

/-- Claim C8 counterexample: Single mode with zero artworks returns one
result, not an empty list. -/
theorem empty_artworks_counterexample :
    (calculateNailPosition stateC8single).length = 1 ∧ (1 : ℕ) ≠ 0 := by
  constructor
  · have h := empty_artworks_result_length stateC8single rfl
    rw [h]
    decide
  · decide

/-- Witness for (amended) C8: an empty list in Vertical mode yields no results. -/
theorem empty_artworks_result_length_witness :
    (calculateNailPosition stateC8vertical).length = 0 := by
  have h := empty_artworks_result_length stateC8vertical rfl
  rw [h]
  decide

/-!
## Claim C1 — Custom Grid 1×1 vs Single (code bug)
-/

/-- Claim C1 is violated by the code: with `rows = cols = 1` and the same
single wire artwork (`height = 50`, `targetCentroid = 100`, all offsets `0`),
Single mode returns nail height `125` but Custom Grid returns `200`, because
the grid branch adds the group offset `targetCentroid - totalHeight/2` on top
of a nail height already computed at `targetCentroid`.  The reported
centroids agree (both `100`); the nail heights do not. -/
theorem grid_one_by_one_differs_from_single :
    ((calculateNailPosition stateC1single).map fun r => r.nailHeight) = [125] ∧
    ((calculateNailPosition stateC1grid).map fun r => r.nailHeight) = [200] ∧
    ((calculateNailPosition stateC1single).map fun r => r.centroid) = [100] ∧
    ((calculateNailPosition stateC1grid).map fun r => r.centroid) = [100] ∧
    ((calculateNailPosition stateC1single).map fun r => r.nailHeight) ≠
      ((calculateNailPosition stateC1grid).map fun r => r.nailHeight) := by
  have h1 : ((calculateNailPosition stateC1single).map fun r => r.nailHeight) = [125] := by
    norm_num [calculateNailPosition, stateC1single, mkState, mkLayout, wireArt,
      singleResults, wireNailHeight, emptyArtwork] <;> simp
  have h2 : ((calculateNailPosition stateC1grid).map fun r => r.nailHeight) = [200] := by
    norm_num [calculateNailPosition, stateC1grid, stateC1single, mkState, mkLayout, wireArt,
      gridResults, gridEntry, gridOffset, gridTotalHeight, rowHeights, rowHeight,
      gridHeightAbove, gridArtLeftX, gridStartX, gridWidthToLeft, gridTotalWidth,
      colWidths, colWidth, groupStart, wireNailHeight, dringNailHeight, emptyArtwork,
      List.range_succ] <;> simp
  have h3 : ((calculateNailPosition stateC1single).map fun r => r.centroid) = [100] := by
    norm_num [calculateNailPosition, stateC1single, mkState, mkLayout, wireArt,
      singleResults, wireNailHeight, emptyArtwork] <;> simp
  have h4 : ((calculateNailPosition stateC1grid).map fun r => r.centroid) = [100] := by
    norm_num [calculateNailPosition, stateC1grid, stateC1single, mkState, mkLayout, wireArt,
      gridResults, gridEntry, gridOffset, gridTotalHeight, rowHeights, rowHeight,
      gridHeightAbove, gridArtLeftX, gridStartX, gridWidthToLeft, gridTotalWidth,
      colWidths, colWidth, groupStart, wireNailHeight, dringNailHeight, emptyArtwork,
      List.range_succ] <;> simp
  refine ⟨h1, h2, h3, h4, ?_⟩
  rw [h1, h2]
  norm_num

/-!
## Claim C2 — Vertical Stack nail heights (code bug)
-/

/-- Claim C2 is violated by the code: in Vertical Stack mode the returned
nail heights are `wireNailHeight`/`dringNailHeight` evaluated at
`targetCentroid`, not at each artwork's own centroid.  For heights `50, 30`,
gap `10`, `targetCentroid = 150` the centroids are `[130, 180]` (as the spec
itself computes) but the nail heights are `[175, 165]`, not the
centroid-based `[wireNailHeight 130 art1, wireNailHeight 180 art2] = [155, 195]`;
and two artworks with identical dimensions and offsets get the same nail
height `175` despite distinct centroids `[120, 180]`. -/
theorem vertical_nail_height_ignores_artwork_centroid :
    ((calculateNailPosition stateC2stack).map fun r => r.centroid) = [130, 180] ∧
    ((calculateNailPosition stateC2stack).map fun r => r.nailHeight) = [175, 165] ∧
    ((calculateNailPosition stateC2stack).map fun r => r.nailHeight) ≠
      [wireNailHeight 130 (wireArt 40 50 0 0), wireNailHeight 180 (wireArt 40 30 0 0)] ∧
    ((calculateNailPosition stateC2twins).map fun r => r.nailHeight) = [175, 175] ∧
    ((calculateNailPosition stateC2twins).map fun r => r.centroid) = [120, 180] := by
  have h1 : ((calculateNailPosition stateC2stack).map fun r => r.centroid) = [130, 180] := by
    norm_num [calculateNailPosition, stateC2stack, mkState, mkLayout, wireArt,
      verticalResults, verticalAux, stackTotal, stackTotalAux, wireNailHeight] <;> simp
  have h2 : ((calculateNailPosition stateC2stack).map fun r => r.nailHeight) = [175, 165] := by
    norm_num [calculateNailPosition, stateC2stack, mkState, mkLayout, wireArt,
      verticalResults, verticalAux, stackTotal, stackTotalAux, wireNailHeight] <;> simp
  have h4 : ((calculateNailPosition stateC2twins).map fun r => r.nailHeight) = [175, 175] := by
    norm_num [calculateNailPosition, stateC2twins, mkState, mkLayout, wireArt,
      verticalResults, verticalAux, stackTotal, stackTotalAux, wireNailHeight] <;> simp
  have h5 : ((calculateNailPosition stateC2twins).map fun r => r.centroid) = [120, 180] := by
    norm_num [calculateNailPosition, stateC2twins, mkState, mkLayout, wireArt,
      verticalResults, verticalAux, stackTotal, stackTotalAux, wireNailHeight] <;> simp
  refine ⟨h1, h2, ?_, h4, h5⟩
  rw [h2]
  norm_num [wireNailHeight, wireArt]

/-!
## Claim C4 — Vertical Stack weighted centroid average
-/

lemma stackTotalAux_shift (gap : ℚ) :
    ∀ (vals : List ℚ) (i : ℕ),
      stackTotalAux gap vals (i + 1) = vals.sum + (vals.length : ℚ) * gap := by
  intro vals
  induction vals with
  | nil => intro i; simp [stackTotalAux]
  | cons v rest ih =>
    intro i
    rw [show stackTotalAux gap (v :: rest) (i + 1)
        = v + (if 0 < i + 1 then gap else 0) + stackTotalAux gap rest (i + 2) from rfl]
    rw [if_pos (Nat.succ_pos i), ih (i + 1)]
    simp only [List.sum_cons, List.length_cons]
    push_cast
    ring

lemma stackTotal_eq (vals : List ℚ) (gap : ℚ) :
    stackTotal vals gap = vals.sum + ((vals.length - 1 : ℕ) : ℚ) * gap := by
  cases vals with
  | nil => simp [stackTotal, stackTotalAux]
  | cons v rest =>
    simp only [stackTotal, stackTotalAux, stackTotalAux_shift, List.sum_cons,
      List.length_cons, Nat.add_sub_cancel]
    rw [if_neg (lt_irrefl 0)]
    ring

lemma sum_map_height_const (h : ℚ) :
    ∀ l : List Artwork, (∀ a ∈ l, a.height = h) →
      (l.map fun a => a.height).sum = (l.length : ℚ) * h := by
  intro l
  induction l with
  | nil => intro _; simp
  | cons a rest ih =>
    intro hh
    simp only [List.map_cons, List.sum_cons, List.length_cons,
      ih fun x hx => hh x (List.mem_cons_of_mem a hx), hh a (List.mem_cons_self a rest)]
    push_cast
    ring

lemma verticalAux_weighted (targetC wallW g offset h : ℚ) :
    ∀ (arts : List Artwork) (total i : ℕ) (c : ℚ),
      (∀ a ∈ arts, a.height = h) → i + arts.length = total →
      ((arts.zip (verticalAux targetC wallW g offset total arts i c)).map
          fun p => p.1.height * p.2.centroid).sum
        = (arts.length : ℚ) * (h * (c + h / 2 + offset))
          + h * (h + g) * ((arts.length : ℚ) * ((arts.length : ℚ) - 1) / 2) := by
  intro arts
  induction arts with
  | nil => intro total i c _ _; simp [verticalAux]
  | cons a rest ih =>
    intro total i c hh hinv
    have ha : a.height = h := hh a (List.mem_cons_self a rest)
    cases rest with
    | nil =>
      by_cases hm : a.mountingType = MountingType.dring <;>
        simp [verticalAux, hm, ha] <;> ring
    | cons b rest2 =>
      have hgapc : i < total - 1 := by
        simp only [List.length_cons] at hinv
        omega
      have hinv2 : (i + 1) + (b :: rest2).length = total := by
        simp only [List.length_cons] at hinv ⊢
        omega
      have htail := ih total (i + 1) (c + a.height + g)
        (fun x hx => hh x (List.mem_cons_of_mem a hx)) hinv2
      have hstep : verticalAux targetC wallW g offset total (a :: b :: rest2) i c
          = (if a.mountingType = MountingType.dring then
              { artwork := i + 1, position := none, isDRing := true,
                nailHeight := dringNailHeight targetC a,
                centroid := c + a.height / 2 + offset,
                horizontalDistance := groupStart wallW a.width + a.mountingHorizontalOffset,
                horizontalDistance2 :=
                  some (groupStart wallW a.width + a.width - a.mountingHorizontalOffset),
                horizontalFromEdge := EdgeRef.left }
             else
              { artwork := i + 1, position := none, isDRing := false,
                nailHeight := wireNailHeight targetC a,
                centroid := c + a.height / 2 + offset,
                horizontalDistance := wallW / 2,
                horizontalDistance2 := none,
                horizontalFromEdge := EdgeRef.center })
            :: verticalAux targetC wallW g offset total (b :: rest2) (i + 1)
                (c + a.height + (if i < total - 1 then g else 0)) := rfl
      rw [hstep, show (if i < total - 1 then g else 0) = g from if_pos hgapc]
      simp only [List.zip_cons_cons, List.map_cons, List.sum_cons]
      rw [htail]
      by_cases hm : a.mountingType = MountingType.dring <;>
        simp only [hm, reduceIte, ha, List.length_cons] <;>
        push_cast <;>
        ring

/-- Claim C4 counterexample (with the spec's own vertical-stack scenario,
heights `50` and `30`, gap `10`, `targetCentroid = 150`): the returned
centroids are `[130, 180]`, so the height-weighted centroid average is
`(50·130 + 30·180) / 80 = 148.75 ≠ 150`. -/
theorem vertical_weighted_average_counterexample :
    ((calculateNailPosition stateC4unequal).map fun r => r.centroid) = [130, 180] ∧
    weightedCentroidSum stateC4unequal = 11900 ∧
    ((stateC4unequal.artworks.map fun a => a.height).sum) = 80 ∧
    weightedCentroidSum stateC4unequal
        / ((stateC4unequal.artworks.map fun a => a.height).sum)
      ≠ stateC4unequal.targetCentroid := by
  have h1 : ((calculateNailPosition stateC4unequal).map fun r => r.centroid) = [130, 180] := by
    norm_num [calculateNailPosition, stateC4unequal, mkState, mkLayout, wireArt,
      verticalResults, verticalAux, stackTotal, stackTotalAux, wireNailHeight] <;> simp
  have h2 : weightedCentroidSum stateC4unequal = 11900 := by
    norm_num [weightedCentroidSum, calculateNailPosition, stateC4unequal, mkState, mkLayout,
      wireArt, verticalResults, verticalAux, stackTotal, stackTotalAux, wireNailHeight] <;>
      simp <;> norm_num
  have h3 : ((stateC4unequal.artworks.map fun a => a.height).sum) = 80 := by
    norm_num [stateC4unequal, mkState, wireArt]
  refine ⟨h1, h2, h3, ?_⟩
  rw [h2, h3]
  norm_num [stateC4unequal, mkState]

/-- Claim C4 (amended): in Vertical Stack mode the height-weighted average of
the returned centroids equals `targetCentroid` whenever all artworks have the
same height (stated multiplicatively:
`Σ héight_i · centroid_i = targetCentroid · Σ height_i`, which avoids the
degenerate `Σ height_i = 0` division).  With unequal heights the engine
centers the stack's bounding extent on the target instead, and the weighted
average can differ. -/
theorem vertical_weighted_average_equal_heights (s : AppState) (h : ℚ)
    (hc : s.configuration = ConfigMode.vertical)
    (hh : ∀ a ∈ s.artworks, a.height = h) :
    weightedCentroidSum s
      = s.targetCentroid * ((s.artworks.map fun a => a.height).sum) := by
  have hcalc : calculateNailPosition s = verticalResults s := by
    simp [calculateNailPosition, hc]
  unfold weightedCentroidSum
  rw [hcalc]
  unfold verticalResults
  rw [verticalAux_weighted s.targetCentroid s.wallWidth s.layout.verticalGap _ h
    s.artworks s.artworks.length 0 0 hh (by simp)]
  rw [sum_map_height_const h s.artworks hh, stackTotal_eq, sum_map_height_const h s.artworks hh]
  rcases Nat.eq_zero_or_pos s.artworks.length with hn | hn
  · simp [hn]
  · rw [List.length_map, Nat.cast_pred hn]
    field_simp
    ring

/-- Witness for (amended) C4: two artworks of equal height `50`. -/
theorem vertical_weighted_average_equal_heights_witness :
    weightedCentroidSum stateC4equal
      = stateC4equal.targetCentroid * ((stateC4equal.artworks.map fun a => a.height).sum) := by
  have h := vertical_weighted_average_equal_heights stateC4equal 50 rfl ?_
  · exact h
  · intro a ha
    simp [stateC4equal, mkState] at ha
    rcases ha with ha | ha <;> subst ha <;> rfl

/-!
## Claim C6 — unit round trip
-/

lemma abs_round1_sub (x : ℚ) : |round1 x - x| ≤ 1 / 20 := by
  have h := abs_sub_round (10 * x)
  have h2 : round1 x - x = -((10 * x - ((round (10 * x) : ℤ) : ℚ)) / 10) := by
    unfold round1
    ring
  rw [h2, abs_neg, abs_div, show |(10 : ℚ)| = 10 from by norm_num]
  linarith

lemma cmRoundTrip_close (x : ℚ) : |cmRoundTrip x - x| ≤ 177 / 1000 := by
  unfold cmRoundTrip convLen
  set y := round1 (x * (1 / (254 / 100))) with hy
  have h1 : |round1 (y * (254 / 100)) - y * (254 / 100)| ≤ 1 / 20 := abs_round1_sub _
  have h2 : |y - x * (1 / (254 / 100))| ≤ 1 / 20 := abs_round1_sub _
  have h4 : |y * (254 / 100) - x| ≤ 127 / 1000 := by
    rw [show y * (254 / 100) - x = (y - x * (1 / (254 / 100))) * (254 / 100) from by ring,
      abs_mul, show |(254 / 100 : ℚ)| = 254 / 100 from by norm_num]
    have := mul_le_mul_of_nonneg_right h2 (show (0 : ℚ) ≤ 254 / 100 from by norm_num)
    linarith
  calc |round1 (y * (254 / 100)) - x|
      ≤ |round1 (y * (254 / 100)) - y * (254 / 100)| + |y * (254 / 100) - x| :=
        abs_sub_le _ _ _
    _ ≤ 1 / 20 + 127 / 1000 := by linarith
    _ = 177 / 1000 := by norm_num

lemma cmRoundTripZ_close (x : ℚ) (hx : 0 < x) : |cmRoundTripZ x - x| ≤ 177 / 1000 := by
  have hx0 : x ≠ 0 := ne_of_gt hx
  unfold cmRoundTripZ convLenZ
  rw [if_neg hx0]
  by_cases hy : round1 (x * (1 / (254 / 100))) = 0
  · rw [if_pos hy]
    have h2 := abs_round1_sub (x * (1 / (254 / 100)))
    rw [hy, zero_sub, abs_neg,
      abs_of_pos (show (0 : ℚ) < x * (1 / (254 / 100)) from by positivity)] at h2
    rw [zero_sub, abs_neg, abs_of_pos hx]
    linarith
  · rw [if_neg hy]
    have h := cmRoundTrip_close x
    unfold cmRoundTrip convLen at h
    exact h

/-- Claim C6: toggling cm→inches→cm multiplies each stored length by
`1/2.54` and then `2.54`, rounding to one decimal at each step
(`cmRoundTrip` for `targetCentroid` and the two layout gaps, the
zero-guarded `cmRoundTripZ` for `wallWidth` and all six artwork fields).
Every positive value returns to within `0.177` (one tenth accumulated over
the two one-decimal roundings: `0.05 · 2.54 + 0.05`), and an exact zero is
preserved as zero in both directions for every length-valued field. -/
theorem unit_roundtrip (s : AppState) :
    (toggleUnits (toggleUnits (LengthUnit.cm, s))).1 = LengthUnit.cm
  ∧ (toggleUnits (toggleUnits (LengthUnit.cm, s))).2.targetCentroid
      = cmRoundTrip s.targetCentroid
  ∧ (toggleUnits (toggleUnits (LengthUnit.cm, s))).2.wallWidth = cmRoundTripZ s.wallWidth
  ∧ (toggleUnits (toggleUnits (LengthUnit.cm, s))).2.layout.horizontalGap
      = cmRoundTrip s.layout.horizontalGap
  ∧ (toggleUnits (toggleUnits (LengthUnit.cm, s))).2.layout.verticalGap
      = cmRoundTrip s.layout.verticalGap
  ∧ (toggleUnits (toggleUnits (LengthUnit.cm, s))).2.artworks
      = s.artworks.map (fun art =>
          { art with
            width := cmRoundTripZ art.width,
            height := cmRoundTripZ art.height,
            wireOffset := cmRoundTripZ art.wireOffset,
            mountingVerticalOffset := cmRoundTripZ art.mountingVerticalOffset,
            mountingHorizontalOffset := cmRoundTripZ art.mountingHorizontalOffset,
            hangerOffset := cmRoundTripZ art.hangerOffset })
  ∧ (∀ x : ℚ, 0 < x → |cmRoundTrip x - x| ≤ 177 / 1000)
  ∧ (∀ x : ℚ, 0 < x → |cmRoundTripZ x - x| ≤ 177 / 1000)
  ∧ (∀ f : ℚ, convLen f 0 = 0)
  ∧ (∀ f : ℚ, convLenZ f 0 = 0) := by
  refine ⟨rfl, rfl, rfl, rfl, rfl, ?_, fun x _ => cmRoundTrip_close x,
    fun x hx => cmRoundTripZ_close x hx, fun f => by simp [convLen, round1],
    fun f => by simp [convLenZ]⟩
  show ((s.artworks.map (convArtwork (1 / (254 / 100)))).map (convArtwork (254 / 100))) = _
  rw [List.map_map]
  rfl

/-!
## Claim C7 — Horizontal Stack
-/

lemma horizontalAux_mem (targetC hgap startX : ℚ) :
    ∀ (arts : List Artwork) (total i : ℕ) (c : ℚ) (r : PlacementResult),
      r ∈ horizontalAux targetC hgap startX total arts i c →
      r.centroid = targetC
      ∧ (r.isDRing = false →
          r.horizontalDistance2 = none ∧ r.horizontalFromEdge = EdgeRef.left)
      ∧ (r.isDRing = true →
          r.horizontalDistance2.isSome = true ∧ r.horizontalFromEdge = EdgeRef.left) := by
  intro arts
  induction arts with
  | nil => intro total i c r hr; simp [horizontalAux] at hr
  | cons a rest ih =>
    intro total i c r hr
    rw [show horizontalAux targetC hgap startX total (a :: rest) i c
        = _ :: horizontalAux targetC hgap startX total rest (i + 1)
            (c + a.width + (if i < total - 1 then hgap else 0)) from rfl,
      List.mem_cons] at hr
    rcases hr with hr | hr
    · subst hr
      by_cases hm : a.mountingType = MountingType.dring <;> simp [hm]
    · exact ih total (i + 1) _ r hr

lemma horizontalAux_wire_distance (targetC hgap startX : ℚ) :
    ∀ (arts : List Artwork) (total i : ℕ) (c : ℚ),
      i + arts.length = total →
      ∀ k, k < arts.length →
        (arts.getD k emptyArtwork).mountingType ≠ MountingType.dring →
        ((horizontalAux targetC hgap startX total arts i c).getD k emptyResult).horizontalDistance
          = startX + c + ((arts.take k).map fun a => a.width).sum
            + (k : ℚ) * hgap + (arts.getD k emptyArtwork).width / 2 := by
  intro arts
  induction arts with
  | nil =>
    intro total i c hinv k hk
    exact absurd hk (by simp)
  | cons a rest ih =>
    intro total i c hinv k hk hw
    cases k with
    | zero =>
      rw [List.getD_cons_zero] at hw
      rw [show horizontalAux targetC hgap startX total (a :: rest) i c
          = _ :: horizontalAux targetC hgap startX total rest (i + 1)
              (c + a.width + (if i < total - 1 then hgap else 0)) from rfl,
        List.getD_cons_zero, List.getD_cons_zero]
      simp [hw]
    | succ k2 =>
      have hk2 : k2 < rest.length := by
        simp only [List.length_cons] at hk
        omega
      have hgapc : i < total - 1 := by
        simp only [List.length_cons] at hinv
        omega
      have hinv2 : (i + 1) + rest.length = total := by
        simp only [List.length_cons] at hinv
        omega
      rw [List.getD_cons_succ] at hw
      rw [show horizontalAux targetC hgap startX total (a :: rest) i c
          = _ :: horizontalAux targetC hgap startX total rest (i + 1)
              (c + a.width + (if i < total - 1 then hgap else 0)) from rfl,
        List.getD_cons_succ, List.getD_cons_succ,
        show (if i < total - 1 then hgap else 0) = hgap from if_pos hgapc,
        ih total (i + 1) (c + a.width + hgap) hinv2 k2 hk2 hw]
      rw [List.take_succ_cons, List.map_cons, List.sum_cons]
      push_cast
      ring

/-- Claim C7 (amended): in Horizontal Stack mode the composite width is
`Σ width + (n - 1) · horizontalGap`; the composite's left edge is
`(wallWidth - totalWidth) / 2` when `wallWidth ≠ 0` but collapses to `0`
when `wallWidth = 0` (the source's `groupStart` guard); every result's
centroid is `targetCentroid`; and a wire artwork's single horizontal
distance is `startX` plus the widths and gaps of all earlier artworks plus
half its own width. -/
theorem horizontal_stack_spec (s : AppState)
    (hc : s.configuration = ConfigMode.horizontal) :
    hStackTotalWidth s
      = ((s.artworks.map fun a => a.width).sum
        + ((s.artworks.length - 1 : ℕ) : ℚ) * s.layout.horizontalGap)
  ∧ (s.wallWidth ≠ 0 → hStackStartX s = (s.wallWidth - hStackTotalWidth s) / 2)
  ∧ (s.wallWidth = 0 → hStackStartX s = 0)
  ∧ (∀ r ∈ calculateNailPosition s, r.centroid = s.targetCentroid)
  ∧ (∀ k, k < s.artworks.length →
      (s.artworks.getD k emptyArtwork).mountingType ≠ MountingType.dring →
      ((calculateNailPosition s).getD k emptyResult).horizontalDistance
        = hStackStartX s + ((s.artworks.take k).map fun a => a.width).sum
          + (k : ℚ) * s.layout.horizontalGap
          + (s.artworks.getD k emptyArtwork).width / 2) := by
  have hcalc : calculateNailPosition s = horizontalResults s := by
    simp [calculateNailPosition, hc]
  refine ⟨?_, ?_, ?_, ?_, ?_⟩
  · rw [hStackTotalWidth, stackTotal_eq]
    simp
  · intro hw
    rw [hStackStartX, groupStart, if_neg hw]
  · intro hw
    rw [hStackStartX, groupStart, if_pos hw]
  · intro r hr
    rw [hcalc] at hr
    exact (horizontalAux_mem _ _ _ _ _ _ _ r hr).1
  · intro k hk hwire
    rw [hcalc]
    unfold horizontalResults
    rw [horizontalAux_wire_distance s.targetCentroid s.layout.horizontalGap (hStackStartX s)
      s.artworks s.artworks.length 0 0 (by simp) k hk hwire]
    ring

/-- Claim C7 counterexample: with `wallWidth = 0` the wire distance is `5`
(half the artwork's width, from a collapsed `startX = 0`), not the
`(wallWidth - totalWidth)/2 + width/2 = 0` implied by the claimed `startX`. -/
theorem horizontal_stack_counterexample :
    ((calculateNailPosition stateC7zeroWall).map fun r => r.horizontalDistance) = [5] ∧
    (5 : ℚ) ≠ (stateC7zeroWall.wallWidth -
        ((stateC7zeroWall.artworks.map fun a => a.width).sum
          + ((stateC7zeroWall.artworks.length - 1 : ℕ) : ℚ)
            * stateC7zeroWall.layout.horizontalGap)) / 2
        + ((stateC7zeroWall.artworks.take 0).map fun a => a.width).sum
        + ((0 : ℕ) : ℚ) * stateC7zeroWall.layout.horizontalGap
        + (stateC7zeroWall.artworks.getD 0 emptyArtwork).width / 2 := by
  constructor
  · norm_num [calculateNailPosition, stateC7zeroWall, mkState, mkLayout, wireArt,
      horizontalResults, horizontalAux, hStackStartX, hStackTotalWidth, stackTotal,
      stackTotalAux, groupStart, wireNailHeight] <;> simp
  · norm_num [stateC7zeroWall, mkState, mkLayout, wireArt]

/-- Witness for (amended) C7 at a two-artwork stack on a `200` wall. -/
theorem horizontal_stack_spec_witness :
    hStackTotalWidth stateC7demo
      = ((stateC7demo.artworks.map fun a => a.width).sum
        + ((stateC7demo.artworks.length - 1 : ℕ) : ℚ) * stateC7demo.layout.horizontalGap)
    ∧ ((calculateNailPosition stateC7demo).getD 0 emptyResult).horizontalDistance
        = hStackStartX stateC7demo
          + ((stateC7demo.artworks.take 0).map fun a => a.width).sum
          + ((0 : ℕ) : ℚ) * stateC7demo.layout.horizontalGap
          + (stateC7demo.artworks.getD 0 emptyArtwork).width / 2 := by
  have h := horizontal_stack_spec stateC7demo rfl
  exact ⟨h.1, h.2.2.2.2 0 (by decide) (by decide)⟩

/-!
## Claim C10 — reference edges per arrangement mode
-/

lemma getD_range_map {β : Type} (f : ℕ → β) (n k : ℕ) (d : β) (hk : k < n) :
    ((List.range n).map f).getD k d = f k := by
  have h1 : k < ((List.range n).map f).length := by simpa using hk
  rw [List.getD_eq_getElem _ _ h1]
  simp

lemma singleResults_mem (s : AppState) :
    ∀ r ∈ singleResults s,
      (r.isDRing = false → r.horizontalDistance2 = none
        ∧ r.horizontalFromEdge = EdgeRef.center ∧ r.horizontalDistance = s.wallWidth / 2)
      ∧ (r.isDRing = true →
          r.horizontalFromEdge = EdgeRef.left ∧ r.horizontalDistance2.isSome = true) := by
  intro r hr
  unfold singleResults at hr
  by_cases hm : (s.artworks.headD emptyArtwork).mountingType = MountingType.dring <;>
    rw [List.headD_eq_head?] at hm <;>
    simp [hm] at hr <;> subst hr <;> simp

lemma verticalAux_mem (targetC wallW vgap offset : ℚ) :
    ∀ (arts : List Artwork) (total i : ℕ) (c : ℚ) (r : PlacementResult),
      r ∈ verticalAux targetC wallW vgap offset total arts i c →
      (r.isDRing = false → r.horizontalDistance2 = none
        ∧ r.horizontalFromEdge = EdgeRef.center ∧ r.horizontalDistance = wallW / 2)
      ∧ (r.isDRing = true →
          r.horizontalFromEdge = EdgeRef.left ∧ r.horizontalDistance2.isSome = true) := by
  intro arts
  induction arts with
  | nil => intro total i c r hr; simp [verticalAux] at hr
  | cons a rest ih =>
    intro total i c r hr
    rw [show verticalAux targetC wallW vgap offset total (a :: rest) i c
        = _ :: verticalAux targetC wallW vgap offset total rest (i + 1)
            (c + a.height + (if i < total - 1 then vgap else 0)) from rfl,
      List.mem_cons] at hr
    rcases hr with hr | hr
    · subst hr
      by_cases hm : a.mountingType = MountingType.dring <;> simp [hm]
    · exact ih total (i + 1) _ r hr

lemma gridEntry_edges (s : AppState) (i : ℕ) :
    ((gridEntry s i).isDRing = false → (gridEntry s i).horizontalDistance2 = none
      ∧ (gridEntry s i).horizontalFromEdge = EdgeRef.left
      ∧ (gridEntry s i).horizontalDistance
          = gridArtLeftX s i + (s.artworks.getD i emptyArtwork).width / 2)
    ∧ ((gridEntry s i).isDRing = true →
        (gridEntry s i).horizontalFromEdge = EdgeRef.left
        ∧ (gridEntry s i).horizontalDistance2.isSome = true) := by
  by_cases hm : (s.artworks.getD i emptyArtwork).mountingType = MountingType.dring <;>
    rw [List.getD_eq_getElem?_getD] at hm <;>
    simp [gridEntry, hm]

/-- Claim C10: wire results carry exactly one horizontal distance whose
reference edge depends on the mode — wall center (`wallWidth / 2`, edge
`center`) in Single and Vertical Stack, the artwork's own center measured
from the wall's left edge (edge `left`) in Horizontal Stack and Custom
Grid — while D-ring results in every mode carry two distances from the
left edge. -/
theorem horizontal_reference_edges (s : AppState) :
    (∀ r ∈ calculateNailPosition s, r.isDRing = true →
        r.horizontalFromEdge = EdgeRef.left ∧ r.horizontalDistance2.isSome = true)
  ∧ (∀ r ∈ calculateNailPosition s, r.isDRing = false → r.horizontalDistance2 = none)
  ∧ ((s.configuration = ConfigMode.single ∨ s.configuration = ConfigMode.vertical) →
      ∀ r ∈ calculateNailPosition s, r.isDRing = false →
        r.horizontalFromEdge = EdgeRef.center ∧ r.horizontalDistance = s.wallWidth / 2)
  ∧ ((s.configuration = ConfigMode.horizontal ∨ s.configuration = ConfigMode.custom) →
      ∀ r ∈ calculateNailPosition s, r.isDRing = false →
        r.horizontalFromEdge = EdgeRef.left)
  ∧ (s.configuration = ConfigMode.horizontal →
      ∀ k, k < s.artworks.length →
        (s.artworks.getD k emptyArtwork).mountingType ≠ MountingType.dring →
        ((calculateNailPosition s).getD k emptyResult).horizontalDistance
          = hStackStartX s + ((s.artworks.take k).map fun a => a.width).sum
            + (k : ℚ) * s.layout.horizontalGap
            + (s.artworks.getD k emptyArtwork).width / 2)
  ∧ (s.configuration = ConfigMode.custom →
      ∀ k, k < min s.artworks.length (s.layout.rows * s.layout.cols) →
        (s.artworks.getD k emptyArtwork).mountingType ≠ MountingType.dring →
        ((calculateNailPosition s).getD k emptyResult).horizontalDistance
          = gridArtLeftX s k + (s.artworks.getD k emptyArtwork).width / 2) := by
  refine ⟨?_, ?_, ?_, ?_, ?_, ?_⟩
  · intro r hr hd
    cases hconf : s.configuration <;> simp only [calculateNailPosition, hconf] at hr <;>
      simp only [reduceCtorEq, if_true, if_false, reduceIte] at hr
    · exact ((singleResults_mem s r hr).2 hd)
    · exact ((verticalAux_mem _ _ _ _ _ _ _ _ r hr).2 hd)
    · exact ⟨((horizontalAux_mem _ _ _ _ _ _ _ r hr).2.2 hd).2,
        ((horizontalAux_mem _ _ _ _ _ _ _ r hr).2.2 hd).1⟩
    · rcases List.mem_map.mp hr with ⟨i, _, rfl⟩
      exact (gridEntry_edges s i).2 hd
  · intro r hr hd
    cases hconf : s.configuration <;> simp only [calculateNailPosition, hconf] at hr <;>
      simp only [reduceCtorEq, if_true, if_false, reduceIte] at hr
    · exact ((singleResults_mem s r hr).1 hd).1
    · exact ((verticalAux_mem _ _ _ _ _ _ _ _ r hr).1 hd).1
    · exact ((horizontalAux_mem _ _ _ _ _ _ _ r hr).2.1 hd).1
    · rcases List.mem_map.mp hr with ⟨i, _, rfl⟩
      exact ((gridEntry_edges s i).1 hd).1
  · rintro (hconf | hconf) r hr hd <;>
      simp only [calculateNailPosition, hconf] at hr <;>
      simp only [reduceCtorEq, if_true, if_false, reduceIte] at hr
    · exact ((singleResults_mem s r hr).1 hd).2
    · exact ((verticalAux_mem _ _ _ _ _ _ _ _ r hr).1 hd).2
  · rintro (hconf | hconf) r hr hd <;>
      simp only [calculateNailPosition, hconf] at hr <;>
      simp only [reduceCtorEq, if_true, if_false, reduceIte] at hr
    · exact ((horizontalAux_mem _ _ _ _ _ _ _ r hr).2.1 hd).2
    · rcases List.mem_map.mp hr with ⟨i, _, rfl⟩
      exact ((gridEntry_edges s i).1 hd).2.1
  · intro hconf k hk hwire
    have hcalc : calculateNailPosition s = horizontalResults s := by
      simp [calculateNailPosition, hconf]
    rw [hcalc]
    unfold horizontalResults
    rw [horizontalAux_wire_distance s.targetCentroid s.layout.horizontalGap (hStackStartX s)
      s.artworks s.artworks.length 0 0 (by simp) k hk hwire]
    ring
  · intro hconf k hk hwire
    have hcalc : calculateNailPosition s = gridResults s := by
      simp [calculateNailPosition, hconf]
    rw [hcalc]
    unfold gridResults
    rw [getD_range_map (gridEntry s) _ k emptyResult hk]
    refine ((gridEntry_edges s k).1 ?_).2.2
    rw [List.getD_eq_getElem?_getD] at hwire
    simp [gridEntry, hwire]

/-- Witness for C10: a single D-ring artwork gets a left-edge reference and
two distances. -/
theorem horizontal_reference_edges_witness :
    ((calculateNailPosition stateC10demo).getD 0 emptyResult).horizontalFromEdge
        = EdgeRef.left
    ∧ ((calculateNailPosition stateC10demo).getD 0 emptyResult).horizontalDistance2.isSome
        = true := by
  have hres : calculateNailPosition stateC10demo =
      [{ artwork := 1, position := none, isDRing := true, nailHeight := 117,
         centroid := 100, horizontalDistance := 80, horizontalDistance2 := some 120,
         horizontalFromEdge := EdgeRef.left }] := by
    norm_num [calculateNailPosition, stateC10demo, mkState, mkLayout, dringArt,
      singleResults, dringNailHeight, groupStart, emptyArtwork] <;> simp
  have h := horizontal_reference_edges stateC10demo
  exact h.1 _ (by rw [hres]; simp) (by rw [hres]; rfl)

/-!
## Claim C9 — totality / no undefined numeric operation
-/

lemma colWidthC_eq (arts : List Artwork) (rows cols c : ℕ) :
    colWidthC arts rows cols c = some (colWidth arts rows cols c) := by
  unfold colWidthC colWidth
  generalize (arts.enum.filter fun p => p.1 % cols == c && decide (p.1 < rows * cols)).map
      (fun p => p.2.width) = l
  cases l <;> simp [maxListC]

lemma rowHeightC_eq (arts : List Artwork) (cols r : ℕ) :
    rowHeightC arts cols r = some (rowHeight arts cols r) := by
  unfold rowHeightC rowHeight
  generalize ((arts.drop (r * cols)).take cols).map (fun a => a.height) = l
  cases l <;> simp [maxListC]

lemma traverseC_eq {α β : Type} (f : α → Option β) (g : α → β) :
    ∀ l : List α, (∀ a ∈ l, f a = some (g a)) → traverseC f l = some (l.map g) := by
  intro l
  induction l with
  | nil => intro _; simp [traverseC]
  | cons a rest ih =>
    intro h
    simp [traverseC, h a (List.mem_cons_self a rest),
      ih fun x hx => h x (List.mem_cons_of_mem a hx)]

lemma singleResultsC_eq (s : AppState) : singleResultsC s = some (singleResults s) := by
  unfold singleResultsC singleResults
  by_cases hm : (s.artworks.headD emptyArtwork).mountingType = MountingType.dring <;>
    rw [List.headD_eq_head?] at hm <;>
    simp [hm]

lemma gridEntryC_eq (s : AppState) (i : ℕ)
    (hi : i < min s.artworks.length (s.layout.rows * s.layout.cols)) :
    gridEntryC s (colWidths s.artworks s.layout.rows s.layout.cols)
        (rowHeights s.artworks s.layout.rows s.layout.cols) (gridStartX s) (gridOffset s) i
      = some (gridEntry s i) := by
  have hlen : i < s.artworks.length := lt_of_lt_of_le hi (min_le_left _ _)
  have hget : s.artworks.get? i = some (s.artworks.getD i emptyArtwork) := by
    rw [List.getD_eq_getElem?_getD, ← List.get?_eq_getElem?, List.get?_eq_get hlen]
    rfl
  unfold gridEntryC gridEntry
  rw [hget]
  by_cases hm : (s.artworks.getD i emptyArtwork).mountingType = MountingType.dring <;>
    rw [List.getD_eq_getElem?_getD] at hm <;>
    simp [hm, gridHeightAbove, gridWidthToLeft, gridArtLeftX]

lemma gridResultsC_eq (s : AppState) : gridResultsC s = some (gridResults s) := by
  unfold gridResultsC gridResults
  rw [traverseC_eq (colWidthC s.artworks s.layout.rows s.layout.cols)
      (colWidth s.artworks s.layout.rows s.layout.cols) (List.range s.layout.cols)
      fun c _ => colWidthC_eq s.artworks s.layout.rows s.layout.cols c]
  rw [traverseC_eq (rowHeightC s.artworks s.layout.cols)
      (rowHeight s.artworks s.layout.cols) (List.range s.layout.rows)
      fun r _ => rowHeightC_eq s.artworks s.layout.cols r]
  simp only [Option.some_bind, groupStartC_eq, divC_two]
  exact traverseC_eq _ (gridEntry s) _ fun i hi =>
    gridEntryC_eq s i (by simpa using hi)

lemma verticalAuxC_eq (targetC wallW vgap offset : ℚ) (total : ℕ) :
    ∀ (arts : List Artwork) (i : ℕ) (c : ℚ),
      verticalAuxC targetC wallW vgap offset total arts i c
        = some (verticalAux targetC wallW vgap offset total arts i c) := by
  intro arts
  induction arts with
  | nil => intro i c; simp [verticalAuxC, verticalAux]
  | cons a rest ih =>
    intro i c
    rw [show verticalAux targetC wallW vgap offset total (a :: rest) i c
        = _ :: verticalAux targetC wallW vgap offset total rest (i + 1)
            (c + a.height + (if i < total - 1 then vgap else 0)) from rfl]
    by_cases hm : a.mountingType = MountingType.dring <;>
      simp [verticalAuxC, hm, ih]

lemma verticalResultsC_eq (s : AppState) : verticalResultsC s = some (verticalResults s) := by
  unfold verticalResultsC verticalResults
  simp [verticalAuxC_eq]

lemma horizontalAuxC_eq (targetC hgap startX : ℚ) (total : ℕ) :
    ∀ (arts : List Artwork) (i : ℕ) (c : ℚ),
      horizontalAuxC targetC hgap startX total arts i c
        = some (horizontalAux targetC hgap startX total arts i c) := by
  intro arts
  induction arts with
  | nil => intro i c; simp [horizontalAuxC, horizontalAux]
  | cons a rest ih =>
    intro i c
    rw [show horizontalAux targetC hgap startX total (a :: rest) i c
        = _ :: horizontalAux targetC hgap startX total rest (i + 1)
            (c + a.width + (if i < total - 1 then hgap else 0)) from rfl]
    by_cases hm : a.mountingType = MountingType.dring <;>
      simp [horizontalAuxC, hm, ih]

lemma horizontalResultsC_eq (s : AppState) :
    horizontalResultsC s = some (horizontalResults s) := by
  unfold horizontalResultsC horizontalResults
  simp [horizontalAuxC_eq, hStackStartX]

/-- Claim C9: the instrumented engine — in which every division checks its
divisor, every `Math.max` spread checks non-emptiness, and every array read
checks its bounds, returning `none` on failure — succeeds on *every* input
state (including degenerate zero width, height and wall width) and returns
exactly the plain engine's results.  Hence the engine never divides by a
configuration-controlled zero, never maxes an empty list, never reads out
of bounds, and every numeric field of every result is a well-defined
rational. -/
theorem engine_total_no_undefined (s : AppState) :
    calculateNailPositionChecked s = some (calculateNailPosition s) := by
  unfold calculateNailPositionChecked calculateNailPosition
  by_cases h1 : s.configuration = ConfigMode.single
  · simp [h1, singleResultsC_eq]
  · by_cases h2 : s.configuration = ConfigMode.custom
    · simp [h1, h2, gridResultsC_eq]
    · by_cases h3 : s.configuration = ConfigMode.vertical
      · simp [h1, h2, h3, verticalResultsC_eq]
      · simp [h1, h2, h3, horizontalResultsC_eq]

/-- Witness for C6: `100` cm survives the round trip to within `0.177`
(concretely it returns as `100.1`), and an exact zero stays zero. -/
theorem unit_roundtrip_witness :
    |cmRoundTrip 100 - 100| ≤ 177 / 1000 ∧ convLenZ (254 / 100) 0 = 0 := by
  have h := unit_roundtrip stateC3demo
  exact ⟨h.2.2.2.2.2.2.1 100 (by norm_num), h.2.2.2.2.2.2.2.2.2 (254 / 100)⟩
